import Mathlib

/-!
# Verification of `detect_whistles.py`

A shallow embedding of the energy-envelope whistle detector in
`detect_whistles.py`.  The script keeps process-wide mutable globals
(`noise_floor`, `stream_t0`, `state`, `whistle_t0`, `low_since`, `count`)
and mutates them once per audio block inside `callback`.  We embed that
state as an explicit structure `St` and `callback` as a pure step function
`St → (energy, timestamp) → St × Option WhistleEvent`.

Numeric values (energies, timestamps, configuration parameters) are
modelled as exact rationals `ℚ`.  The RMS energy computation (`rms`,
line 51-53 of the source) maps a sample block to a single scalar; since
every claim is about the state machine's treatment of that scalar, blocks
are represented by their energy value `e` together with their timestamp
`now` (`time_info.inputBufferAdcTime`).

One behaviour is embedded with particular care: line 107 of the source is
`low_since = low_since or now`.  Python's `or` treats both `None` and the
float `0.0` as falsy, so a stored timestamp equal to `0.0` is replaced by
`now` exactly as if it were unset.  `effLow` reproduces this.
-/

namespace WhistleDetect

/-- The command line parameters of `detect_whistles.py` (argparse block,
lines 33-43).  `fs` and `chunk` configure the audio capture layer and are
irrelevant to the detection logic, so they are omitted here. -/
structure Args where
  min : ℚ
  max : ℚ
  rise : ℚ
  fall : ℚ
  hold : ℚ
  alpha : ℚ
  warmup : ℚ
deriving Repr, DecidableEq

/-- Module-level argument validation (source lines 45-46):
`if args.fall >= args.rise: sys.exit(...)`.  This runs right after
argument parsing, before the audio stream is opened, so a failure here
terminates the process before any block is processed. -/
def validateArgs (args : Args) : Except String Unit :=
  if args.rise ≤ args.fall then
    .error "--fall must be smaller than --rise (hysteresis)"
  else
    .ok ()

/-- The detector state: `"IDLE"` or `"IN_WHISTLE"` (source line 60). -/
inductive DState where
  | IDLE
  | IN_WHISTLE
deriving Repr, DecidableEq

/-- The global mutable state of the script (source lines 58-63). -/
structure St where
  noise_floor : Option ℚ
  stream_t0 : Option ℚ
  state : DState
  whistle_t0 : ℚ
  low_since : Option ℚ
  count : ℕ
deriving Repr, DecidableEq

/-- The initial values of the globals (source lines 58-63). -/
def St.init : St :=
  { noise_floor := none, stream_t0 := none, state := .IDLE,
    whistle_t0 := 0, low_since := none, count := 0 }

/-- The event reported when a whistle session closes (the prints at source
lines 114-118, structured as the spec's `WhistleEvent`).  `count` is the
running accepted count attached to an accepted event, and `0` for a
rejected event (whose print carries no count). -/
structure WhistleEvent where
  startTime : ℚ
  endTime : ℚ
  duration : ℚ
  accepted : Bool
  count : ℕ
deriving Repr, DecidableEq

/-- One smoothing step of the adaptive noise floor (source lines 89 and
93): `noise_floor = (1 - args.alpha) * noise_floor + args.alpha * e`. -/
def floorUpdate (alpha nf e : ℚ) : ℚ :=
  (1 - alpha) * nf + alpha * e

/-- `low_since = low_since or now` (source line 107).  Python's `or`
returns `now` when `low_since` is `None` and also when it is the falsy
float `0.0`; otherwise it keeps the stored value. -/
def effLow (low : Option ℚ) (now : ℚ) : ℚ :=
  match low with
  | none => now
  | some t => if t = 0 then now else t

/-- The audio callback (source lines 68-120), as a pure step function on
the global state.  Inputs are the block's RMS energy `e` and timestamp
`now`; the result pairs the updated state with the event emitted on a
session close, if any. -/
def callback (args : Args) (s : St) (e now : ℚ) : St × Option WhistleEvent :=
  -- lines 76-77: first ever timestamp
  let t0 : ℚ := match s.stream_t0 with
    | none => now
    | some t => t
  let s1 : St := { s with stream_t0 := some t0 }
  match s1.noise_floor with
  | none =>
    -- lines 83-85: seed with first chunk, do not detect on this buffer
    ({ s1 with noise_floor := some e }, none)
  | some nf =>
    if now - t0 < args.warmup then
      -- lines 88-90: adapt floor but do not detect
      ({ s1 with noise_floor := some (floorUpdate args.alpha nf e) }, none)
    else
      -- line 93: regular adaptive noise floor
      let nf1 : ℚ := floorUpdate args.alpha nf e
      let s2 : St := { s1 with noise_floor := some nf1 }
      match s2.state with
      | .IDLE =>
        if args.rise * nf1 < e then
          -- lines 97-102: whistle starts
          ({ s2 with state := .IN_WHISTLE, whistle_t0 := now,
                     low_since := none }, none)
        else
          (s2, none)
      | .IN_WHISTLE =>
        if e < args.fall * nf1 then
          -- line 107: start/extend quiet timer
          let ls : ℚ := effLow s2.low_since now
          let s3 : St := { s2 with low_since := some ls }
          if args.hold ≤ now - ls then
            -- lines 110-118: whistle finished
            let duration : ℚ := now - s3.whistle_t0
            let accepted : Bool :=
              decide (args.min ≤ duration ∧ duration ≤ args.max)
            let newCount : ℕ := if accepted then s3.count + 1 else s3.count
            ({ s3 with state := .IDLE, count := newCount },
             some { startTime := s3.whistle_t0, endTime := now,
                    duration := duration, accepted := accepted,
                    count := if accepted then newCount else 0 })
          else
            (s3, none)
        else
          -- line 120: energy bounced back, still in whistle
          ({ s2 with low_since := none }, none)

/-- Process a list of `(energy, timestamp)` blocks in order, collecting the
emitted events. -/
def runBlocks (args : Args) (s : St) : List (ℚ × ℚ) → St × List WhistleEvent
  | [] => (s, [])
  | (e, t) :: bs =>
    let r := callback args s e t
    let rest := runBlocks args r.1 bs
    (rest.1, r.2.toList ++ rest.2)

/-- The noise floor after folding the smoothing update over a list of
energies (the floor evolves independently of the state machine, since the
update at lines 89/93 runs before the state machine on every block). -/
def floorAfter (alpha nf : ℚ) (es : List ℚ) : ℚ :=
  es.foldl (floorUpdate alpha) nf

/-- Floor after `n` smoothing steps with the constant energy `E`
(iterating line 93 of the source on a constant input). -/
def floorIterN (alpha f0 E : ℚ) : ℕ → ℚ
  | 0 => f0
  | n + 1 => floorUpdate alpha (floorIterN alpha f0 E n) E

/-- `dipPhase args nf t0 tfirst bs` holds when every block of `bs`,
processed against the evolving noise floor starting from `nf`, falls past
the warm-up window, is a dip (energy below `fall ×` the floor as updated
for that block), and carries a timestamp no earlier than `tfirst` (the
time the dwell timer was started) but less than `hold` after it — i.e.
the continuous low span stays shorter than the hold time. -/
def dipPhase (args : Args) (nf t0 tfirst : ℚ) : List (ℚ × ℚ) → Prop
  | [] => True
  | (e, t) :: bs =>
    args.warmup ≤ t - t0 ∧ tfirst ≤ t ∧
      e < args.fall * floorUpdate args.alpha nf e ∧
      t - tfirst < args.hold ∧
      dipPhase args (floorUpdate args.alpha nf e) t0 tfirst bs

/-! ## Claim theorems -/

/-- C9: on the very first block ever observed (the initial global state of
lines 58-63), the noise floor is seeded to exactly that block's energy,
no smoothing update is applied, the stream origin is recorded, and nothing
else changes: the state machine stays `IDLE` and no event is emitted. -/
theorem seed_block_only_seeds (args : Args) (e now : ℚ) :
    callback args St.init e now =
      ({ St.init with noise_floor := some e, stream_t0 := some now }, none) := by
  rfl

/-- C6: module-level validation (lines 45-46) terminates the process with
an error exactly when `fall ≥ rise`; every configuration with
`fall < rise` passes.  The check runs before the audio stream is opened,
hence before any block is processed. -/
theorem hysteresis_validated (args : Args) :
    (args.rise ≤ args.fall →
      validateArgs args =
        .error "--fall must be smaller than --rise (hysteresis)") ∧
    (args.fall < args.rise → validateArgs args = .ok ()) := by
  constructor
  · intro h
    simp [validateArgs, h]
  · intro h
    simp [validateArgs, not_le.mpr h]

/-- Witness for C6: a configuration with `fall = rise = 3` is rejected and
one with `fall = 3 < rise = 6` is accepted. -/
theorem hysteresis_validated_witness :
    validateArgs { min := 1, max := 15, rise := 3, fall := 3, hold := 2/5,
                   alpha := 1/50, warmup := 1 } =
      .error "--fall must be smaller than --rise (hysteresis)" ∧
    validateArgs { min := 1, max := 15, rise := 6, fall := 3, hold := 2/5,
                   alpha := 1/50, warmup := 1 } = .ok () :=
  ⟨(hysteresis_validated _).1 (by norm_num),
   (hysteresis_validated _).2 (by norm_num)⟩

/-- Counterexample to C7: the configuration with `alpha = -1/2 ≤ 0`
(and `fall = 3 < rise = 6`) passes the startup validation, so a
non-positive smoothing factor is NOT detected as a fatal configuration
error — the script runs with it. -/
theorem alpha_unchecked_cex :
    (Args.alpha { min := 1, max := 15, rise := 6, fall := 3, hold := 2/5,
                  alpha := -(1/2), warmup := 1 } ≤ 0) ∧
    validateArgs { min := 1, max := 15, rise := 6, fall := 3, hold := 2/5,
                   alpha := -(1/2), warmup := 1 } = .ok () := by
  constructor
  · norm_num
  · simp [validateArgs]
    norm_num

/-- C7 (amended): startup validation inspects only `rise` and `fall`
(lines 45-46); it never looks at the smoothing factor, so its outcome is
unchanged under any replacement of `alpha` — in particular a non-positive
`alpha` is never rejected. -/
theorem validate_ignores_alpha (args : Args) (a : ℚ) :
    validateArgs { args with alpha := a } = validateArgs args := by
  simp [validateArgs]

/-- C5 evaluated at the failing input: in state `IN_WHISTLE` with the
dwell timer already set to the timestamp `0.0`, `hold = 2` and a dip block
at `now = 3`, line 107 (`low_since = low_since or now`) treats the stored
`0.0` as unset because Python's `or` regards the float `0.0` as falsy: the
timer is moved to `3` and — although `now − lowSince = 3 ≥ hold` for the
stored value — no close happens and no event is emitted. -/
theorem low_since_zero_reset_bug :
    (callback { min := 0, max := 100, rise := 6, fall := 3, hold := 2,
                alpha := 0, warmup := 0 }
       { noise_floor := some 1, stream_t0 := some 0, state := .IN_WHISTLE,
         whistle_t0 := 0, low_since := some 0, count := 0 } 1 3).2 = none ∧
    (callback { min := 0, max := 100, rise := 6, fall := 3, hold := 2,
                alpha := 0, warmup := 0 }
       { noise_floor := some 1, stream_t0 := some 0, state := .IN_WHISTLE,
         whistle_t0 := 0, low_since := some 0, count := 0 } 1 3).1.low_since
      = some 3 := by
  norm_num [callback, floorUpdate, effLow]

/-- Counterexample to C3: with `warmupSeconds = 0` the second block DOES
cause a state-machine transition.  Concretely, after the seed block
`(energy 1, t = 0)` the second block `(energy 100, t = 1)` satisfies
`1 − 0 < 0` = false, so it reaches the state machine and opens a whistle:
the state after two blocks is `IN_WHISTLE`, not `IDLE`. -/
theorem second_block_transitions_cex :
    St.init.state = DState.IDLE ∧
    (runBlocks { min := 0, max := 100, rise := 6, fall := 3, hold := 1,
                 alpha := 0, warmup := 0 }
       St.init [(1, 0), (100, 1)]).1.state = DState.IN_WHISTLE := by
  constructor
  · rfl
  · norm_num [runBlocks, callback, floorUpdate, effLow, St.init]

/-- C3 (amended): the first block never causes a transition or an event
(it only seeds the floor), and the second block never emits an event; but
the second block is excluded from the state machine only while its
timestamp satisfies `now₂ − now₁ < warmupSeconds`.  (With
`warmupSeconds = 0`, or a second timestamp at least `warmupSeconds` after
the first, the second block participates in detection and can open a
whistle.) -/
theorem first_two_blocks_amended (args : Args) (e1 t1 e2 t2 : ℚ) :
    (callback args St.init e1 t1).2 = none ∧
    (callback args St.init e1 t1).1.state = DState.IDLE ∧
    (callback args (callback args St.init e1 t1).1 e2 t2).2 = none ∧
    (t2 - t1 < args.warmup →
      (callback args (callback args St.init e1 t1).1 e2 t2).1.state
        = DState.IDLE) := by
  refine ⟨rfl, rfl, ?_, ?_⟩
  · simp only [callback, St.init]
    split
    · rfl
    · split <;> rfl
  · intro h
    simp only [callback, St.init]
    rw [if_pos h]

/-- Witness for C3 (amended): with `warmup = 5`, blocks `(1, 0)` and
`(100, 1)` leave the machine in `IDLE` (the second timestamp is inside
the warm-up window). -/
theorem first_two_blocks_amended_witness :
    ((1:ℚ) - 0 < Args.warmup { min := 0, max := 100, rise := 6, fall := 3,
                               hold := 1, alpha := 0, warmup := 5 }) ∧
    (callback { min := 0, max := 100, rise := 6, fall := 3, hold := 1,
                alpha := 0, warmup := 5 }
       (callback { min := 0, max := 100, rise := 6, fall := 3, hold := 1,
                   alpha := 0, warmup := 5 } St.init 1 0).1 100 1).1.state
      = DState.IDLE :=
  ⟨by norm_num,
   (first_two_blocks_amended _ 1 0 100 1).2.2.2 (by norm_num)⟩

/-- C4: on every seeded block the noise floor is first updated by
`floor ← (1 − alpha) × floor + alpha × energy` (lines 89/93, warm-up or
not), and past warm-up both threshold comparisons of the state machine
use exactly this already-updated value: in `IDLE` the whistle opens iff
`energy > riseMultiplier ×` the updated floor, and in `IN_WHISTLE` the
dwell timer is cleared iff `energy ≥ fallMultiplier ×` the updated
floor. -/
theorem floor_update_precedes_compare (args : Args) (s : St) (nf t0 e now : ℚ)
    (hnf : s.noise_floor = some nf) (ht0 : s.stream_t0 = some t0) :
    (callback args s e now).1.noise_floor
      = some (floorUpdate args.alpha nf e) ∧
    (args.warmup ≤ now - t0 →
      (s.state = DState.IDLE →
        ((callback args s e now).1.state = DState.IN_WHISTLE ↔
          args.rise * floorUpdate args.alpha nf e < e)) ∧
      (s.state = DState.IN_WHISTLE →
        ((callback args s e now).1.low_since = none ↔
          ¬ e < args.fall * floorUpdate args.alpha nf e))) := by
  obtain ⟨snf, st0, sstate, swt0, sls, scount⟩ := s
  simp only at hnf ht0
  subst hnf ht0
  constructor
  · cases sstate
    · simp only [callback]
      split
      · rfl
      · split <;> rfl
    · simp only [callback]
      split
      · rfl
      · split
        · split <;> rfl
        · rfl
  · intro hw
    have hnw : ¬ now - t0 < args.warmup := not_lt.mpr hw
    constructor
    · intro hst
      simp only at hst
      subst hst
      simp only [callback, if_neg hnw]
      by_cases hr : args.rise * floorUpdate args.alpha nf e < e
      · simp [hr]
      · simp [hr]
    · intro hst
      simp only at hst
      subst hst
      simp only [callback, if_neg hnw]
      by_cases hd : e < args.fall * floorUpdate args.alpha nf e
      · rw [if_pos hd]
        split <;> simp [hd]
      · rw [if_neg hd]
        simp [hd]

/-- Witness for C4: a seeded `IDLE` state with floor `1`, `alpha = 0`,
block energy `10` at time `1`, `warmup = 0`. -/
theorem floor_update_precedes_compare_witness :
    (callback { min := 0, max := 100, rise := 6, fall := 3, hold := 1,
                alpha := 0, warmup := 0 }
       { noise_floor := some 1, stream_t0 := some 0, state := .IDLE,
         whistle_t0 := 0, low_since := none, count := 0 } 10 1).1.noise_floor
      = some (floorUpdate 0 1 10) ∧
    ((0:ℚ) ≤ 1 - 0 →
      (St.state { noise_floor := some 1, stream_t0 := some 0,
                  state := .IDLE, whistle_t0 := 0, low_since := none,
                  count := 0 } = DState.IDLE →
        ((callback { min := 0, max := 100, rise := 6, fall := 3, hold := 1,
                     alpha := 0, warmup := 0 }
           { noise_floor := some 1, stream_t0 := some 0, state := .IDLE,
             whistle_t0 := 0, low_since := none, count := 0 } 10 1).1.state
          = DState.IN_WHISTLE ↔ (6:ℚ) * floorUpdate 0 1 10 < 10)) ∧
      (St.state { noise_floor := some 1, stream_t0 := some 0,
                  state := .IDLE, whistle_t0 := 0, low_since := none,
                  count := 0 } = DState.IN_WHISTLE →
        ((callback { min := 0, max := 100, rise := 6, fall := 3, hold := 1,
                     alpha := 0, warmup := 0 }
           { noise_floor := some 1, stream_t0 := some 0, state := .IDLE,
             whistle_t0 := 0, low_since := none, count := 0 } 10 1).1.low_since
          = none ↔ ¬ (10:ℚ) < 3 * floorUpdate 0 1 10))) :=
  floor_update_precedes_compare _ _ 1 0 10 1 rfl rfl

/-- C2: whenever a whistle session closes (state `IN_WHISTLE`, past
warm-up, a dip block whose dwell has reached `hold`), the emitted event
has `startTime = whistle_t0`, `endTime = now`,
`duration = now − whistle_t0`, `accepted` true exactly when
`minDuration ≤ duration ≤ maxDuration`, the machine returns to `IDLE`,
and the running count is incremented exactly when `accepted` is true —
an out-of-range whistle is still reported but leaves the count
unchanged. -/
theorem close_event_contract (args : Args) (s : St) (nf t0 e now : ℚ)
    (hst : s.state = DState.IN_WHISTLE)
    (hnf : s.noise_floor = some nf) (ht0 : s.stream_t0 = some t0)
    (hw : args.warmup ≤ now - t0)
    (hdip : e < args.fall * floorUpdate args.alpha nf e)
    (hhold : args.hold ≤ now - effLow s.low_since now) :
    ∃ ev : WhistleEvent,
      (callback args s e now).2 = some ev ∧
      ev.startTime = s.whistle_t0 ∧ ev.endTime = now ∧
      ev.duration = now - s.whistle_t0 ∧
      (ev.accepted = true ↔
        (args.min ≤ now - s.whistle_t0 ∧ now - s.whistle_t0 ≤ args.max)) ∧
      (callback args s e now).1.state = DState.IDLE ∧
      (ev.accepted = true →
        (callback args s e now).1.count = s.count + 1) ∧
      (ev.accepted = false →
        (callback args s e now).1.count = s.count) := by
  obtain ⟨snf, st0, sstate, swt0, sls, scount⟩ := s
  simp only at hst hnf ht0 hhold
  subst hst hnf ht0
  have hnw : ¬ now - t0 < args.warmup := not_lt.mpr hw
  simp only [callback]
  rw [if_neg hnw, if_pos hdip, if_pos hhold]
  refine ⟨_, rfl, rfl, rfl, rfl, ?_, rfl, ?_, ?_⟩
  · exact ⟨of_decide_eq_true, decide_eq_true⟩
  · intro hacc
    have h : decide (args.min ≤ now - swt0 ∧ now - swt0 ≤ args.max)
        = true := hacc
    show (if decide (args.min ≤ now - swt0 ∧ now - swt0 ≤ args.max) = true
          then scount + 1 else scount) = scount + 1
    rw [if_pos h]
  · intro hacc
    have h : decide (args.min ≤ now - swt0 ∧ now - swt0 ≤ args.max)
        = false := hacc
    show (if decide (args.min ≤ now - swt0 ∧ now - swt0 ≤ args.max) = true
          then scount + 1 else scount) = scount
    rw [h]
    simp

/-- Witness for C2: closing a session that opened at time `1`, with a dip
whose dwell timer started at time `2`, closing at `now = 4` with
`hold = 1`; the duration `3` lies in `[0, 100]`, so the event is accepted
and the count becomes `1`. -/
theorem close_event_contract_witness :
    ((1:ℚ) < 3 * floorUpdate 0 1 1) ∧
    (∃ ev : WhistleEvent,
      (callback { min := 0, max := 100, rise := 6, fall := 3, hold := 1,
                  alpha := 0, warmup := 0 }
         { noise_floor := some 1, stream_t0 := some 0,
           state := .IN_WHISTLE, whistle_t0 := 1, low_since := some 2,
           count := 0 } 1 4).2 = some ev ∧
      ev.startTime = 1 ∧ ev.endTime = 4 ∧ ev.duration = (4:ℚ) - 1 ∧
      (ev.accepted = true ↔ ((0:ℚ) ≤ 4 - 1 ∧ (4:ℚ) - 1 ≤ 100)) ∧
      (callback { min := 0, max := 100, rise := 6, fall := 3, hold := 1,
                  alpha := 0, warmup := 0 }
         { noise_floor := some 1, stream_t0 := some 0,
           state := .IN_WHISTLE, whistle_t0 := 1, low_since := some 2,
           count := 0 } 1 4).1.state = DState.IDLE ∧
      (ev.accepted = true →
        (callback { min := 0, max := 100, rise := 6, fall := 3, hold := 1,
                    alpha := 0, warmup := 0 }
           { noise_floor := some 1, stream_t0 := some 0,
             state := .IN_WHISTLE, whistle_t0 := 1, low_since := some 2,
             count := 0 } 1 4).1.count = 0 + 1) ∧
      (ev.accepted = false →
        (callback { min := 0, max := 100, rise := 6, fall := 3, hold := 1,
                    alpha := 0, warmup := 0 }
           { noise_floor := some 1, stream_t0 := some 0,
             state := .IN_WHISTLE, whistle_t0 := 1, low_since := some 2,
             count := 0 } 1 4).1.count = 0)) :=
  ⟨by norm_num [floorUpdate],
   close_event_contract _ _ 1 0 1 4 rfl rfl rfl (by norm_num)
     (by norm_num [floorUpdate]) (by norm_num [effLow])⟩

/-- Error of the floor after `n` constant-energy updates, as an exact
multiple of the initial error. -/
theorem floorIterN_sub_eq (alpha f0 E : ℚ) (n : ℕ) :
    floorIterN alpha f0 E n - E = (1 - alpha) ^ n * (f0 - E) := by
  induction n with
  | zero => simp [floorIterN]
  | succ n ih =>
    simp only [floorIterN, floorUpdate]
    linear_combination ((1:ℚ) - alpha) * ih

/-- C8: feeding a constant energy `E` on every update step, for any
`0 < alpha ≤ 1` the floor's error after `n` steps satisfies exactly
`|floor_n − E| = |floor_0 − E| × (1 − alpha)^n`, and the error is
monotonically non-increasing step over step. -/
theorem floor_geometric_convergence (alpha f0 E : ℚ) (n : ℕ)
    (h0 : 0 < alpha) (h1 : alpha ≤ 1) :
    |floorIterN alpha f0 E n - E| = |f0 - E| * (1 - alpha) ^ n ∧
    |floorIterN alpha f0 E (n + 1) - E| ≤ |floorIterN alpha f0 E n - E| := by
  have hnn : (0:ℚ) ≤ 1 - alpha := by linarith
  have key : ∀ m : ℕ,
      |floorIterN alpha f0 E m - E| = |f0 - E| * (1 - alpha) ^ m := by
    intro m
    rw [floorIterN_sub_eq, abs_mul, abs_pow, abs_of_nonneg hnn, mul_comm]
  refine ⟨key n, ?_⟩
  rw [key n, key (n + 1), pow_succ]
  have hb : (1 - alpha) ^ n * (1 - alpha) ≤ (1 - alpha) ^ n * 1 :=
    mul_le_mul_of_nonneg_left (by linarith) (pow_nonneg hnn n)
  nlinarith [abs_nonneg (f0 - E), pow_nonneg hnn n]

/-- Witness for C8: `alpha = 1/2`, `floor_0 = 3`, `E = 1`, `n = 2`. -/
theorem floor_geometric_convergence_witness :
    ((0:ℚ) < 1/2) ∧ ((1/2:ℚ) ≤ 1) ∧
    (|floorIterN (1/2) 3 1 2 - 1| = |(3:ℚ) - 1| * (1 - 1/2) ^ 2 ∧
     |floorIterN (1/2) 3 1 (2 + 1) - 1| ≤ |floorIterN (1/2) 3 1 2 - 1|) :=
  ⟨by norm_num, by norm_num,
   floor_geometric_convergence (1/2) 3 1 2 (by norm_num) (by norm_num)⟩

/-- `effLow` never moves the dwell start before `tfirst` when the stored
value and `now` are both at or after `tfirst` (this absorbs the falsy
`0.0` reset of line 107: even then the timer restarts at `now ≥ tfirst`). -/
theorem effLow_ge (tfirst v now : ℚ) (hv : tfirst ≤ v) (hn : tfirst ≤ now) :
    tfirst ≤ effLow (some v) now := by
  simp only [effLow]
  split <;> assumption

/-- A dip block while `IN_WHISTLE` whose dwell timer start (and current
timestamp) lie within `hold` of the dwell start `tfirst` leaves the state
machine untouched apart from the noise floor and the (possibly
0.0-reset) dwell timer: no event and no close. -/
theorem callback_dip_keep (args : Args) (nf t0 swt0 tfirst v e now : ℚ)
    (scount : ℕ)
    (hw : args.warmup ≤ now - t0)
    (hdip : e < args.fall * floorUpdate args.alpha nf e)
    (hv : tfirst ≤ v) (hn : tfirst ≤ now)
    (hhold : now - tfirst < args.hold) :
    callback args
        { noise_floor := some nf, stream_t0 := some t0,
          state := .IN_WHISTLE, whistle_t0 := swt0, low_since := some v,
          count := scount } e now
      = ({ noise_floor := some (floorUpdate args.alpha nf e),
           stream_t0 := some t0, state := .IN_WHISTLE, whistle_t0 := swt0,
           low_since := some (effLow (some v) now), count := scount },
         none) := by
  have hnw : ¬ now - t0 < args.warmup := not_lt.mpr hw
  have hge : tfirst ≤ effLow (some v) now := effLow_ge tfirst v now hv hn
  have hno : ¬ args.hold ≤ now - effLow (some v) now := by
    apply not_le.mpr
    calc now - effLow (some v) now ≤ now - tfirst := by linarith
      _ < args.hold := hhold
  simp only [callback]
  rw [if_neg hnw, if_pos hdip, if_neg hno]

/-- The first dip block while `IN_WHISTLE` with the dwell timer unset
starts the timer at `now`; with `hold > 0` it cannot close at once. -/
theorem callback_dip_first (args : Args) (nf t0 swt0 e now : ℚ) (scount : ℕ)
    (hw : args.warmup ≤ now - t0)
    (hdip : e < args.fall * floorUpdate args.alpha nf e)
    (hhold : 0 < args.hold) :
    callback args
        { noise_floor := some nf, stream_t0 := some t0,
          state := .IN_WHISTLE, whistle_t0 := swt0, low_since := none,
          count := scount } e now
      = ({ noise_floor := some (floorUpdate args.alpha nf e),
           stream_t0 := some t0, state := .IN_WHISTLE, whistle_t0 := swt0,
           low_since := some now, count := scount }, none) := by
  have hnw : ¬ now - t0 < args.warmup := not_lt.mpr hw
  have hef : effLow none now = now := rfl
  have hno : ¬ args.hold ≤ now - now := by
    rw [sub_self]
    exact not_le.mpr hhold
  simp only [callback]
  rw [if_neg hnw, if_pos hdip, hef, if_neg hno]

/-- A bounce-back block (energy at or above the fall threshold) while
`IN_WHISTLE` clears the dwell timer and emits nothing (line 120). -/
theorem callback_bounce (args : Args) (nf t0 swt0 e now : ℚ)
    (ls : Option ℚ) (scount : ℕ)
    (hw : args.warmup ≤ now - t0)
    (hnb : ¬ e < args.fall * floorUpdate args.alpha nf e) :
    callback args
        { noise_floor := some nf, stream_t0 := some t0,
          state := .IN_WHISTLE, whistle_t0 := swt0, low_since := ls,
          count := scount } e now
      = ({ noise_floor := some (floorUpdate args.alpha nf e),
           stream_t0 := some t0, state := .IN_WHISTLE, whistle_t0 := swt0,
           low_since := none, count := scount }, none) := by
  have hnw : ¬ now - t0 < args.warmup := not_lt.mpr hw
  simp only [callback]
  rw [if_neg hnw, if_neg hnb]

/-- Running a whole `dipPhase` (every block a dip, dwell below `hold`)
emits no event and only evolves the noise floor and the dwell timer,
which stays set to some time no earlier than its start `tfirst`. -/
theorem runBlocks_dipPhase (args : Args) (t0 tfirst swt0 : ℚ) (scount : ℕ) :
    ∀ (dips : List (ℚ × ℚ)) (nf v : ℚ), tfirst ≤ v →
      dipPhase args nf t0 tfirst dips →
      ∃ v', tfirst ≤ v' ∧
        runBlocks args
            { noise_floor := some nf, stream_t0 := some t0,
              state := .IN_WHISTLE, whistle_t0 := swt0,
              low_since := some v, count := scount } dips
          = ({ noise_floor := some (floorAfter args.alpha nf
                                      (dips.map Prod.fst)),
               stream_t0 := some t0, state := .IN_WHISTLE,
               whistle_t0 := swt0, low_since := some v',
               count := scount }, []) := by
  intro dips
  induction dips with
  | nil =>
    intro nf v hv _
    exact ⟨v, hv, by simp [runBlocks, floorAfter]⟩
  | cons b bs ih =>
    obtain ⟨e, t⟩ := b
    intro nf v hv hd
    obtain ⟨hw, hts, hdip, hh, hrest⟩ := hd
    obtain ⟨v', hv', hrun⟩ := ih (floorUpdate args.alpha nf e)
      (effLow (some v) t) (effLow_ge tfirst v t hv hts) hrest
    refine ⟨v', hv', ?_⟩
    simp only [runBlocks]
    rw [callback_dip_keep args nf t0 swt0 tfirst v e t scount
          hw hdip hv hts hh]
    rw [hrun]
    simp [floorAfter]

/-- Processing a concatenation of block lists is processing the first,
then the second from the resulting state, with the events appended. -/
theorem runBlocks_append (args : Args) :
    ∀ (l1 l2 : List (ℚ × ℚ)) (s : St),
      runBlocks args s (l1 ++ l2)
        = ((runBlocks args (runBlocks args s l1).1 l2).1,
           (runBlocks args s l1).2
             ++ (runBlocks args (runBlocks args s l1).1 l2).2) := by
  intro l1
  induction l1 with
  | nil =>
    intro l2 s
    simp [runBlocks]
  | cons b bs ih =>
    intro l2 s
    obtain ⟨e, t⟩ := b
    simp only [List.cons_append, runBlocks, List.append_eq]
    rw [ih]
    simp [runBlocks]

/-- C1: anti-chatter.  From any `IN_WHISTLE` state with the dwell timer
unset, a first dip block, a continuation of dip blocks whose timestamps
all stay within `hold` of the first (`dipPhase`), and then a block whose
energy rises back to or above the fall threshold, produce NO event; the
state remains `IN_WHISTLE` with the same `whistle_t0` and count, and the
dwell timer (`low_since`) is reset to unset, so a later qualifying dip
must again stay low for the full `hold` before the session can close. -/
theorem anti_chatter (args : Args) (s : St) (nf t0 e1 t1 : ℚ)
    (dips : List (ℚ × ℚ)) (eb tb : ℚ)
    (hst : s.state = DState.IN_WHISTLE) (hnf : s.noise_floor = some nf)
    (ht0 : s.stream_t0 = some t0) (hls : s.low_since = none)
    (h1w : args.warmup ≤ t1 - t0)
    (h1dip : e1 < args.fall * floorUpdate args.alpha nf e1)
    (h1hold : 0 < args.hold)
    (hdips : dipPhase args (floorUpdate args.alpha nf e1) t0 t1 dips)
    (hbw : args.warmup ≤ tb - t0)
    (hb : ¬ eb < args.fall * floorUpdate args.alpha
            (floorAfter args.alpha (floorUpdate args.alpha nf e1)
              (dips.map Prod.fst)) eb) :
    (runBlocks args s ((e1, t1) :: dips ++ [(eb, tb)])).2 = [] ∧
    (runBlocks args s ((e1, t1) :: dips ++ [(eb, tb)])).1.state
      = DState.IN_WHISTLE ∧
    (runBlocks args s ((e1, t1) :: dips ++ [(eb, tb)])).1.whistle_t0
      = s.whistle_t0 ∧
    (runBlocks args s ((e1, t1) :: dips ++ [(eb, tb)])).1.count = s.count ∧
    (runBlocks args s ((e1, t1) :: dips ++ [(eb, tb)])).1.low_since
      = none := by
  obtain ⟨snf, st0, sstate, swt0, sls, scount⟩ := s
  simp only at hst hnf ht0 hls
  subst hst hnf ht0 hls
  have key : runBlocks args
      { noise_floor := some nf, stream_t0 := some t0,
        state := .IN_WHISTLE, whistle_t0 := swt0, low_since := none,
        count := scount } ((e1, t1) :: dips ++ [(eb, tb)])
      = ({ noise_floor := some (floorUpdate args.alpha
              (floorAfter args.alpha (floorUpdate args.alpha nf e1)
                (dips.map Prod.fst)) eb),
           stream_t0 := some t0, state := .IN_WHISTLE, whistle_t0 := swt0,
           low_since := none, count := scount }, []) := by
    obtain ⟨v', hv', hrun⟩ := runBlocks_dipPhase args t0 t1 swt0 scount
      dips (floorUpdate args.alpha nf e1) t1 (le_refl t1) hdips
    simp only [List.cons_append, runBlocks, List.append_eq]
    rw [callback_dip_first args nf t0 swt0 e1 t1 scount h1w h1dip h1hold]
    dsimp only
    rw [runBlocks_append]
    rw [hrun]
    dsimp only
    simp only [runBlocks]
    rw [callback_bounce args _ t0 swt0 eb tb (some v') scount hbw hb]
    simp [runBlocks]
  rw [key]
  exact ⟨rfl, rfl, rfl, rfl, rfl⟩

/-- Witness for C1: floor `1`, `fall = 3`, `hold = 5`, a first dip at
`t = 1`, one more dip at `t = 2`, then a bounce of energy `10` at
`t = 3`: no event, still `IN_WHISTLE`, dwell timer cleared. -/
theorem anti_chatter_witness :
    (0 : ℚ) < 5 ∧
    ((runBlocks { min := 0, max := 100, rise := 6, fall := 3, hold := 5,
                  alpha := 0, warmup := 0 }
        { noise_floor := some 1, stream_t0 := some 0,
          state := .IN_WHISTLE, whistle_t0 := 1/2, low_since := none,
          count := 0 } ((1, 1) :: [(1, 2)] ++ [(10, 3)])).2 = [] ∧
     (runBlocks { min := 0, max := 100, rise := 6, fall := 3, hold := 5,
                  alpha := 0, warmup := 0 }
        { noise_floor := some 1, stream_t0 := some 0,
          state := .IN_WHISTLE, whistle_t0 := 1/2, low_since := none,
          count := 0 } ((1, 1) :: [(1, 2)] ++ [(10, 3)])).1.state
       = DState.IN_WHISTLE ∧
     (runBlocks { min := 0, max := 100, rise := 6, fall := 3, hold := 5,
                  alpha := 0, warmup := 0 }
        { noise_floor := some 1, stream_t0 := some 0,
          state := .IN_WHISTLE, whistle_t0 := 1/2, low_since := none,
          count := 0 } ((1, 1) :: [(1, 2)] ++ [(10, 3)])).1.whistle_t0
       = St.whistle_t0 { noise_floor := some 1, stream_t0 := some 0,
                         state := .IN_WHISTLE, whistle_t0 := 1/2,
                         low_since := none, count := 0 } ∧
     (runBlocks { min := 0, max := 100, rise := 6, fall := 3, hold := 5,
                  alpha := 0, warmup := 0 }
        { noise_floor := some 1, stream_t0 := some 0,
          state := .IN_WHISTLE, whistle_t0 := 1/2, low_since := none,
          count := 0 } ((1, 1) :: [(1, 2)] ++ [(10, 3)])).1.count
       = St.count { noise_floor := some 1, stream_t0 := some 0,
                    state := .IN_WHISTLE, whistle_t0 := 1/2,
                    low_since := none, count := 0 } ∧
     (runBlocks { min := 0, max := 100, rise := 6, fall := 3, hold := 5,
                  alpha := 0, warmup := 0 }
        { noise_floor := some 1, stream_t0 := some 0,
          state := .IN_WHISTLE, whistle_t0 := 1/2, low_since := none,
          count := 0 } ((1, 1) :: [(1, 2)] ++ [(10, 3)])).1.low_since
       = none) :=
  ⟨by norm_num,
   anti_chatter _ _ 1 0 1 1 [(1, 2)] 10 3 rfl rfl rfl rfl
     (by norm_num) (by norm_num [floorUpdate]) (by norm_num)
     (by norm_num [dipPhase, floorUpdate])
     (by norm_num) (by norm_num [floorAfter, floorUpdate])⟩

/-- The inductive invariant behind C10: while `IN_WHISTLE`, the session
start `whistle_t0` is no later than the last seen timestamp `t`, and no
later than the stored dwell-timer start, if any. -/
def InvLow (s : St) (t : ℚ) : Prop :=
  s.state = DState.IN_WHISTLE →
    s.whistle_t0 ≤ t ∧ ∀ u : ℚ, s.low_since = some u → s.whistle_t0 ≤ u

/-- One callback step preserves `InvLow` (for the new timestamp) when
timestamps do not decrease, and any event it emits has
`duration ≥ hold` and `accepted` computed from the duration bounds. -/
theorem callback_preserves_inv (args : Args) (s : St) (e now t : ℚ)
    (hinv : InvLow s t) (hle : t ≤ now) :
    InvLow (callback args s e now).1 now ∧
    (∀ ev : WhistleEvent, (callback args s e now).2 = some ev →
      args.hold ≤ ev.duration ∧
      ev.accepted
        = decide (args.min ≤ ev.duration ∧ ev.duration ≤ args.max)) := by
  obtain ⟨snf, st0, sstate, swt0, sls, scount⟩ := s
  have hwt : sstate = DState.IN_WHISTLE → swt0 ≤ now := fun h =>
    le_trans ((hinv h).1) hle
  have hlow : sstate = DState.IN_WHISTLE →
      ∀ u : ℚ, sls = some u → swt0 ≤ u := fun h => (hinv h).2
  have heff : sstate = DState.IN_WHISTLE → swt0 ≤ effLow sls now := by
    intro h
    cases sls with
    | none => simpa [effLow] using hwt h
    | some v =>
      by_cases hv : v = 0
      · simpa [effLow, hv] using hwt h
      · simpa [effLow, hv] using hlow h v rfl
  cases snf with
  | none =>
    refine ⟨?_, ?_⟩
    · intro h
      simp only [callback] at h ⊢
      exact ⟨hwt h, fun u hu => hlow h u hu⟩
    · intro ev hev
      simp [callback] at hev
  | some nf =>
    cases sstate with
    | IDLE =>
      simp only [callback]
      split
      · exact ⟨fun h => by simp at h, fun ev hev => by simp at hev⟩
      · split
        · refine ⟨?_, fun ev hev => by simp at hev⟩
          intro _
          exact ⟨le_refl now, fun u hu => by simp at hu⟩
        · exact ⟨fun h => by simp at h, fun ev hev => by simp at hev⟩
    | IN_WHISTLE =>
      simp only [callback]
      split
      · exact ⟨fun h => ⟨hwt h, fun u hu => hlow h u hu⟩,
               fun ev hev => by simp at hev⟩
      · split
        · rename_i hclose
          split
          · rename_i hhold
            refine ⟨fun h => by simp at h, ?_⟩
            intro ev hev
            rw [Option.some_inj] at hev
            subst hev
            refine ⟨?_, rfl⟩
            have h1 : swt0 ≤ effLow sls now := heff rfl
            show args.hold ≤ now - swt0
            calc args.hold ≤ now - effLow sls now := hhold
              _ ≤ now - swt0 := by linarith
          · refine ⟨?_, fun ev hev => by simp at hev⟩
            intro _
            refine ⟨hwt rfl, ?_⟩
            intro u hu
            rw [Option.some_inj] at hu
            subst hu
            exact heff rfl
        · exact ⟨fun _ => ⟨hwt rfl, fun u hu => by simp at hu⟩,
                 fun ev hev => by simp at hev⟩

/-- Every event produced by a run from an `InvLow`-respecting state, over
blocks with non-decreasing timestamps starting at or after `t`, has
`duration ≥ hold` and `accepted` computed from the duration bounds. -/
theorem runBlocks_event_bounds (args : Args) :
    ∀ (blocks : List (ℚ × ℚ)) (s : St) (t : ℚ),
      InvLow s t →
      List.Chain (fun a b : ℚ => a ≤ b) t (blocks.map Prod.snd) →
      ∀ ev ∈ (runBlocks args s blocks).2,
        args.hold ≤ ev.duration ∧
        ev.accepted
          = decide (args.min ≤ ev.duration ∧ ev.duration ≤ args.max) := by
  intro blocks
  induction blocks with
  | nil =>
    intro s t _ _ ev hev
    simp [runBlocks] at hev
  | cons b bs ih =>
    obtain ⟨e, now⟩ := b
    intro s t hinv hchain ev hev
    simp only [List.map_cons, List.chain_cons] at hchain
    obtain ⟨hle, hchain⟩ := hchain
    have hstep := callback_preserves_inv args s e now t hinv hle
    simp only [runBlocks, List.mem_append] at hev
    cases hev with
    | inl h =>
      cases hcb : (callback args s e now).2 with
      | none =>
        rw [hcb] at h
        simp at h
      | some ev0 =>
        rw [hcb] at h
        simp only [Option.toList_some, List.mem_singleton] at h
        subst h
        exact hstep.2 _ hcb
    | inr h =>
      exact ih (callback args s e now).1 now hstep.1 hchain ev h

/-- C10: over any run from the initial state whose block timestamps are
monotonically non-decreasing, every emitted `WhistleEvent` has
`duration ≥ holdSeconds` (a session closes only when `now − lowSince ≥
hold` and the dwell start is never earlier than the session start), and
consequently whenever `minDuration ≤ holdSeconds` an event is accepted
iff its duration is within the upper bound — the lower bound never
rejects it. -/
theorem events_last_at_least_hold (args : Args) (blocks : List (ℚ × ℚ))
    (hsort : List.Chain' (fun a b : ℚ => a ≤ b) (blocks.map Prod.snd)) :
    ∀ ev ∈ (runBlocks args St.init blocks).2,
      args.hold ≤ ev.duration ∧
      (args.min ≤ args.hold →
        (ev.accepted = true ↔ ev.duration ≤ args.max)) := by
  intro ev hev
  cases blocks with
  | nil => simp [runBlocks] at hev
  | cons b bs =>
    have hinv : InvLow St.init b.2 := by
      intro h
      simp [St.init] at h
    have hchain : List.Chain (fun a b : ℚ => a ≤ b) b.2
        ((b :: bs).map Prod.snd) := by
      simp only [List.map_cons]
      exact List.Chain.cons (le_refl _) hsort
    have hmain := runBlocks_event_bounds args (b :: bs) St.init b.2
      hinv hchain ev hev
    refine ⟨hmain.1, ?_⟩
    intro hmin
    rw [hmain.2]
    constructor
    · intro h
      exact (of_decide_eq_true h).2
    · intro h
      exact decide_eq_true ⟨le_trans hmin hmain.1, h⟩

/-- Witness for C10: the run that seeds on `(1, 0)`, opens on `(10, 1)`,
dips at `(1, 2)` and closes at `(1, 4)` with `hold = 1` has sorted
timestamps, and its one emitted event (duration `3`) satisfies both
conclusions. -/
theorem events_last_at_least_hold_witness :
    List.Chain' (fun a b : ℚ => a ≤ b)
      ([((1:ℚ), (0:ℚ)), (10, 1), (1, 2), (1, 4)].map Prod.snd) ∧
    ∀ ev ∈ (runBlocks { min := 0, max := 100, rise := 6, fall := 3,
                        hold := 1, alpha := 0, warmup := 0 }
              St.init [(1, 0), (10, 1), (1, 2), (1, 4)]).2,
      Args.hold { min := 0, max := 100, rise := 6, fall := 3, hold := 1,
                  alpha := 0, warmup := 0 } ≤ ev.duration ∧
      (Args.min { min := 0, max := 100, rise := 6, fall := 3, hold := 1,
                  alpha := 0, warmup := 0 }
         ≤ Args.hold { min := 0, max := 100, rise := 6, fall := 3,
                       hold := 1, alpha := 0, warmup := 0 } →
        (ev.accepted = true ↔
          ev.duration ≤ Args.max { min := 0, max := 100, rise := 6,
                                   fall := 3, hold := 1, alpha := 0,
                                   warmup := 0 })) :=
  ⟨by norm_num [List.chain'_cons, List.chain'_singleton],
   events_last_at_least_hold _ _
     (by norm_num [List.chain'_cons, List.chain'_singleton])⟩

end WhistleDetect
